import Mathlib

/-!
Verification of the XML directory service loader (`twext/who/xml.py`).

The Python module parses an XML document into a set of directory records,
tracks unrecognized record-type and field-name tokens, and builds a field
index mapping indexed field values back to records.  We give a shallow
embedding of `DirectoryService.loadRecords`, the `realmName` property
setter, and the vocabulary classes (`Element`, `Attribute`, `Value`), and
prove/refute the specification's claims about them.

Conventions of the embedding:
  * XML input is modelled as `Option XNode`: `none` stands for a byte
    stream the XML parser rejects (`XMLParseError`), `some root` for the
    parsed tree.  Element text is `Option String` (ElementTree yields
    `None` for an element with no text content).
  * Python exceptions become the `LoadErr` type: `structural` is
    `DirectoryServiceError`, `attributeError` is the uncaught
    `AttributeError` from `None.encode("utf-8")`, `nameError` is the
    uncaught `NameError` when the local `fieldName` is read before any
    assignment, `invariantViolation` is the `AssertionError` raised by the
    `realmName` setter.
  * Python `set`s of strings/records become duplicate-free lists built
    with insert-if-absent; only membership matters to the claims.
-/

/-- Modelled from the spec: record types from `twext.who.idirectory`
(not under `src/`): "enumerations for record types (user, group)". -/
inductive RecordType where
  | user
  | group
deriving DecidableEq, Repr

/-- Modelled from the spec: field names from `twext.who.idirectory`
(not under `src/`): "unique id, globally-unique id, short names, full
names, email addresses, password", plus the record-type field. -/
inductive FieldName where
  | recordType
  | uid
  | guid
  | shortNames
  | fullNames
  | emailAddresses
  | password
deriving DecidableEq, Repr

/-- Modelled from the spec: the multi-value predicate of
`FieldNameClass.isMultiValue` (defined in `twext.who.idirectory`, not
under `src/`): "A multi-valued field (`short-name`, `full-name`,
`email`)"; all other fields are single-valued. -/
def FieldName.isMultiValue : FieldName → Bool
  | .shortNames => true
  | .fullNames => true
  | .emailAddresses => true
  | _ => false

/-! The `Element` value-constant tokens of the source. -/
namespace Element

def directory : String := "directory"

def record : String := "record"

def uid : String := "uid"

def guid : String := "guid"

def shortName : String := "short-name"

def fullName : String := "full-name"

def emailAddress : String := "email"

def password : String := "password"

def member : String := "member-uid"

end Element

/-! The `Attribute` value-constant tokens of the source. -/
namespace Attribute

def realm : String := "realm"

def recordType : String := "type"

end Attribute

/-! The `Value` value-constant tokens of the source. -/
namespace Value

def true' : String := "true"

def false' : String := "false"

def user : String := "user"

def group : String := "group"

end Value

/-- `ElementClass.lookupByValue(tag).fieldName`: `some fn` when the tag is
an `Element` constant carrying a `fieldName` attribute; `none` when
`lookupByValue` raises `ValueError` (unknown token) or the constant has no
`fieldName` attribute (`directory`, `record`, `member-uid`), which raises
`AttributeError`.  Both exceptions are caught by the same handler in
`loadRecords`. -/
def lookupFieldName (tag : String) : Option FieldName :=
  if tag = Element.uid then some .uid
  else if tag = Element.guid then some .guid
  else if tag = Element.shortName then some .shortNames
  else if tag = Element.fullName then some .fullNames
  else if tag = Element.emailAddress then some .emailAddresses
  else if tag = Element.password then some .password
  else none

/-- `ValueClass.lookupByValue(token).recordType`: `some rt` for the
`user`/`group` constants; `none` when `lookupByValue` raises `ValueError`
or the constant has no `recordType` attribute (`true`, `false`). -/
def lookupRecordType (token : String) : Option RecordType :=
  if token = Value.user then some .user
  else if token = Value.group then some .group
  else none

/-- An XML element as produced by `xml.etree.ElementTree`: tag, attribute
list, text content (`none` when the element has no text), children. -/
structure XNode where
  tag : String
  attrs : List (String × String)
  text : Option String
  children : List XNode
deriving Repr

/-- `getAttribute(node, name)`: `node.get(name, "")` — the attribute's
value, or `""` when absent.  (The `.encode("utf-8")` is the identity in
our string model.) -/
def getAttribute (node : XNode) (name : String) : String :=
  match node.attrs.lookup name with
  | some v => v
  | none => ""

/-- The field mapping of one record (the Python dict `fields`).
`recordType` is always present: it is set before the field loop and no
element tag maps to it.  The other fields are absent until stored. -/
structure Fields where
  recordType : RecordType
  uid : Option String
  guid : Option String
  shortNames : Option (List String)
  fullNames : Option (List String)
  emailAddresses : Option (List String)
  password : Option String
deriving DecidableEq, Repr

/-- `fields = {}; fields[FieldName.recordType] = recordType`. -/
def initFields (rt : RecordType) : Fields :=
  ⟨rt, none, none, none, none, none, none⟩

/-- The body of the field-storing branch: for a multi-valued field,
`fields.setdefault(fieldName, []).append(value)`; otherwise
`fields[fieldName] = value`.  The `recordType` case is unreachable —
`lookupFieldName` never returns it. -/
def Fields.store (f : Fields) (fn : FieldName) (v : String) : Fields :=
  match fn with
  | .recordType => f
  | .uid => { f with uid := some v }
  | .guid => { f with guid := some v }
  | .password => { f with password := some v }
  | .shortNames => { f with shortNames := some ((f.shortNames.getD []) ++ [v]) }
  | .fullNames => { f with fullNames := some ((f.fullNames.getD []) ++ [v]) }
  | .emailAddresses =>
      { f with emailAddresses := some ((f.emailAddresses.getD []) ++ [v]) }

/-- Python `set.add`: insert if not already present. -/
def insertStr (s : String) (l : List String) : List String :=
  if s ∈ l then l else l ++ [s]

/-- `records.add(DirectoryRecord(self, fields))`: the record is its field
mapping (the `DirectoryRecord` constructor of `twext.who.directory`
stores the fields; per the spec, records compare by value equality). -/
def insertRec (r : Fields) (l : List Fields) : List Fields :=
  if r ∈ l then l else l ++ [r]

/-- Python exceptions that can escape `loadRecords` / the `realmName`
setter. -/
inductive LoadErr where
  | structural (msg : String)
  | attributeError
  | nameError
  | invariantViolation
deriving DecidableEq, Repr

/-- One iteration of the field loop, operating on the record's `fields`
dict, the function-local `fieldName` (which persists across iterations —
and across records — so it is threaded as `Option FieldName`, `none`
meaning not yet assigned), and the `unknownFieldNames` set:

  * resolve the tag; on `ValueError`/`AttributeError` record the tag as
    unknown and fall through WITHOUT reassigning `fieldName`;
  * `value = fieldNode.text.encode("utf-8")` — raises `AttributeError`
    when the text is `None`;
  * branch on `isMultiValue(fieldName)` and store — raises `NameError`
    when `fieldName` was never assigned. -/
def processFieldNode (flds : Fields) (last : Option FieldName)
    (unk : List String) (node : XNode) :
    Except LoadErr (Fields × Option FieldName × List String) :=
  let resolved : Option FieldName × List String :=
    match lookupFieldName node.tag with
    | some fn => (some fn, unk)
    | none => (last, insertStr node.tag unk)
  match node.text with
  | none => .error .attributeError
  | some v =>
      match resolved.1 with
      | none => .error .nameError
      | some fn => .ok (flds.store fn v, some fn, resolved.2)

/-- The field loop: `for fieldNode in recordNode.getchildren(): ...`. -/
def processFieldNodes (flds : Fields) (last : Option FieldName)
    (unk : List String) :
    List XNode → Except LoadErr (Fields × Option FieldName × List String)
  | [] => .ok (flds, last, unk)
  | node :: rest =>
      match processFieldNode flds last unk node with
      | .error e => .error e
      | .ok (f, l, u) => processFieldNodes f l u rest

/-- The record-type attribute after defaulting:
`recordTypeAttribute = getAttribute(recordNode, "type")` followed by
`if not recordTypeAttribute: recordTypeAttribute = "user"`. -/
def effectiveTypeAttr (node : XNode) : String :=
  let t := getAttribute node Attribute.recordType
  if t = "" then Value.user else t

/-- State carried through the record loop: the `records` set, the two
unknown-token sets, and the function-local `fieldName` (see
`processFieldNode`). -/
structure RecState where
  records : List Fields
  unknownRecordTypes : List String
  unknownFieldNames : List String
  last : Option FieldName
deriving Repr

/-- Outcome of one record-loop iteration: `halt` models the `break` taken
on an unrecognized record type, `next` continues with the next sibling. -/
inductive StepResult where
  | halt (st : RecState)
  | next (st : RecState)
deriving Repr

/-- One iteration of the record loop: resolve the (defaulted) record-type
attribute; if unrecognized, add it to `unknownRecordTypes` and `break`;
otherwise run the field loop starting from `{recordType: rt}` and add the
resulting record to the record set. -/
def processRecordNode (st : RecState) (node : XNode) :
    Except LoadErr StepResult :=
  match lookupRecordType (effectiveTypeAttr node) with
  | none =>
      .ok (.halt { st with
        unknownRecordTypes :=
          insertStr (effectiveTypeAttr node) st.unknownRecordTypes })
  | some rt =>
      match processFieldNodes (initFields rt) st.last st.unknownFieldNames
          node.children with
      | .error e => .error e
      | .ok (flds, last, unkF) =>
          .ok (.next { st with
            records := insertRec flds st.records
            unknownFieldNames := unkF
            last := last })

/-- The record loop: `for recordNode in directoryNode.getchildren()`. -/
def processRecordNodes (st : RecState) :
    List XNode → Except LoadErr RecState
  | [] => .ok st
  | node :: rest =>
      match processRecordNode st node with
      | .error e => .error e
      | .ok (.halt st) => .ok st
      | .ok (.next st) => processRecordNodes st rest

/-- Keys of the field index: record-type sub-index keys are `RecordType`
constants, all other sub-indexes are keyed by strings. -/
inductive IndexKey where
  | ofRecordType (rt : RecordType)
  | ofString (s : String)
deriving DecidableEq, Repr

/-- `DirectoryService.indexedFields`. -/
def indexedFields : List FieldName :=
  [.recordType, .uid, .guid, .shortNames, .emailAddresses]

/-- `record.fields.get(fieldName, None)` followed by the normalization
`if not isMultiValue: values = (values,)`: the sequence of index keys a
record contributes for a field (empty when the field is absent). -/
def Fields.indexValues (f : Fields) : FieldName → List IndexKey
  | .recordType => [.ofRecordType f.recordType]
  | .uid => (f.uid.map fun s => [IndexKey.ofString s]).getD []
  | .guid => (f.guid.map fun s => [IndexKey.ofString s]).getD []
  | .shortNames =>
      ((f.shortNames.map fun l => l.map IndexKey.ofString)).getD []
  | .fullNames =>
      ((f.fullNames.map fun l => l.map IndexKey.ofString)).getD []
  | .emailAddresses =>
      ((f.emailAddresses.map fun l => l.map IndexKey.ofString)).getD []
  | .password => (f.password.map fun s => [IndexKey.ofString s]).getD []

/-- The field index, as a function: `index[fieldName][value]` is the set
of records holding `value` for `fieldName` (empty where the Python dict
has no entry). -/
def Index : Type := FieldName → IndexKey → List Fields

/-- `index[fieldName].setdefault(value, set()).add(record)`. -/
def addToIndex (idx : Index) (fn : FieldName) (k : IndexKey)
    (r : Fields) : Index :=
  fun fn' k' =>
    if fn' = fn ∧ k' = k then insertRec r (idx fn k) else idx fn' k'

/-- The inner two loops of index construction for one record: for each
indexed field, insert the record under each of its values. -/
def indexRecord (idx : Index) (r : Fields) : Index :=
  indexedFields.foldl
    (fun idx fn => (r.indexValues fn).foldl
      (fun idx k => addToIndex idx fn k r) idx)
    idx

/-- Index construction: start from empty sub-indexes and fold every
record in. -/
def buildIndex (records : List Fields) : Index :=
  records.foldl indexRecord (fun _ _ => [])

/-- The result of a successful `loadRecords` call: exactly the state the
method stores (`_realmName`, `_unknownRecordTypes`, `_unknownFieldNames`,
`_index`), plus the parsed record set the index is built from. -/
structure LoadResult where
  realmName : String
  unknownRecordTypes : List String
  unknownFieldNames : List String
  records : List Fields
  index : Index

/-- `DirectoryService.loadRecords`, from opening the parsed document to
computing the state to store.  `none` input models a stream the XML
parser rejects (wrapped into `DirectoryServiceError`). -/
def loadRecords (src : Option XNode) : Except LoadErr LoadResult :=
  match src with
  | none => .error (.structural "XML parse error")
  | some root =>
      if root.tag = Element.directory then
        let realmName := getAttribute root Attribute.realm
        if realmName = "" then .error (.structural "No realm name.")
        else
          match processRecordNodes ⟨[], [], [], none⟩ root.children with
          | .error e => .error e
          | .ok st =>
              .ok ⟨realmName, st.unknownRecordTypes, st.unknownFieldNames,
                st.records, buildIndex st.records⟩
      else .error (.structural ("Incorrect root element: " ++ root.tag))

/-- The records of a load, `[]` when the load fails (used only to state
concrete evaluations). -/
def loadedRecords (src : Option XNode) : List Fields :=
  match loadRecords src with
  | .ok r => r.records
  | .error _ => []

/-- The store: its source (the current contents of `filePath`, already
run through the XML parser) and its cached state — `none` while the lazy
`_realmName`/`_unknownRecordTypes`/`_unknownFieldNames`/`_index`
attributes are unset, `some r` once a load has stored them. -/
structure Store where
  source : Option XNode
  state : Option LoadResult

/-- A `loadRecords` call at the store level: all `self._x = ...`
assignments in the Python method come after every statement that can
raise, so a failing load returns the store unchanged together with the
escaping exception, and a successful load replaces the whole cached
state. -/
def Store.load (s : Store) : Store × Option LoadErr :=
  match loadRecords s.source with
  | .ok r => ({ s with state := some r }, none)
  | .error e => (s, some e)

/-- The `realmName` property setter: `if value is not None: raise
AssertionError(...)` — assigning `None` does nothing at all. -/
def Store.setRealmName (s : Store) (value : Option String) :
    Store × Option LoadErr :=
  match value with
  | some _ => (s, some .invariantViolation)
  | none => (s, none)

/-- The texts of the children of a record node whose tag maps to the
field `fn`, in source order (used to state the claims about repeated
field elements). -/
def fieldOccurrences (fn : FieldName) (nodes : List XNode) : List String :=
  nodes.filterMap fun c =>
    if lookupFieldName c.tag = some fn then c.text else none

/-- The value list a field mapping holds for a multi-valued field
(`[]` when absent). -/
def Fields.getMulti (f : Fields) : FieldName → List String
  | .shortNames => f.shortNames.getD []
  | .fullNames => f.fullNames.getD []
  | .emailAddresses => f.emailAddresses.getD []
  | _ => []

/-- The value a field mapping holds for a single-valued string field
(`none` when absent). -/
def Fields.getSingle (f : Fields) : FieldName → Option String
  | .uid => f.uid
  | .guid => f.guid
  | .password => f.password
  | _ => none

/-- Last-occurrence-wins accumulation: the value left in a single-valued
dict slot after writing each element of the list in order over the
default `d`. -/
def lastValue (d : Option String) : List String → Option String
  | [] => d
  | v :: rest => lastValue (some v) rest

/-- Concrete document for the C1 witness: a first record with an
unrecognized type followed by a valid user record
(`<directory realm="R"><record type="bogus"/><record><uid>u1</uid></record></directory>`). -/
def docC1 : XNode :=
  ⟨"directory", [("realm", "R")], none,
    [⟨"record", [("type", "bogus")], none, []⟩,
     ⟨"record", [], none, [⟨"uid", [], some "u1", []⟩]⟩]⟩

/-- Concrete document for C2: a record with a recognized `uid` element
followed by an unrecognized `bogus` element
(`<directory realm="R"><record><uid>u1</uid><bogus>x</bogus></record></directory>`). -/
def docC2 : XNode :=
  ⟨"directory", [("realm", "R")], none,
    [⟨"record", [], none,
      [⟨"uid", [], some "u1", []⟩, ⟨"bogus", [], some "x", []⟩]⟩]⟩

/-- Concrete document for C3: a record with an empty `uid` element
(`<directory realm="R"><record><uid></uid></record></directory>`;
ElementTree gives such an element `text = None`). -/
def docC3 : XNode :=
  ⟨"directory", [("realm", "R")], none,
    [⟨"record", [], none, [⟨"uid", [], none, []⟩]⟩]⟩

/-- The spec's end-to-end example document:
`<directory realm="Test"><record><uid>u1</uid><short-name>alice</short-name><short-name>al</short-name></record></directory>`. -/
def docTest : XNode :=
  ⟨"directory", [("realm", "Test")], none,
    [⟨"record", [], none,
      [⟨"uid", [], some "u1", []⟩,
       ⟨"short-name", [], some "alice", []⟩,
       ⟨"short-name", [], some "al", []⟩]⟩]⟩

/-- The record `docTest` materializes. -/
def recAlice : Fields :=
  ⟨.user, some "u1", none, some ["alice", "al"], none, none, none⟩

/-- The record node of `docC7`: one `short-name` element followed by an
unrecognized `bogus` element. -/
def recNodeC7 : XNode :=
  ⟨"record", [], none,
    [⟨"short-name", [], some "a", []⟩, ⟨"bogus", [], some "x", []⟩]⟩

/-- Concrete document for the C7 counterexample
(`<directory realm="R"><record><short-name>a</short-name><bogus>x</bogus></record></directory>`). -/
def docC7 : XNode :=
  ⟨"directory", [("realm", "R")], none, [recNodeC7]⟩

/-- A store whose source has root token `not-directory`, already holding
cached state from an earlier successful load (for the C4 witness). -/
def storeC4 : Store :=
  ⟨some ⟨"not-directory", [], none, []⟩,
   some ⟨"Old", [], [], [], buildIndex []⟩⟩

/-- A record node with no `type` attribute (for the C8 witness). -/
def recNodeC8 : XNode :=
  ⟨"record", [], none, [⟨"uid", [], some "u1", []⟩]⟩

/-! Basic lemmas about the set-insertion helpers. -/

lemma mem_insertStr_self (s : String) (l : List String) :
    s ∈ insertStr s l := by
  unfold insertStr
  split
  · assumption
  · simp

lemma mem_insertRec_self (r : Fields) (l : List Fields) :
    r ∈ insertRec r l := by
  unfold insertRec
  split
  · assumption
  · simp

lemma mem_insertRec_of_mem (x r : Fields) (l : List Fields) (h : x ∈ l) :
    x ∈ insertRec r l := by
  unfold insertRec
  split
  · exact h
  · simp [h]

/-- Claim C9: assigning any non-null value to the `realmName` property
raises an `InvariantViolation` (`AssertionError`) and leaves the store's
state unchanged. -/
theorem spec_C9_setRealmName_nonNull_raises (s : Store) (v : String) :
    s.setRealmName (some v) = (s, some .invariantViolation) := rfl

/-- Claim C10: assigning `None` to the `realmName` property is a silent
no-op — no error, and the store's state (in particular the stored realm
name) is unchanged. -/
theorem spec_C10_setRealmName_null_noop (s : Store) :
    s.setRealmName none = (s, none) := rfl

/-- Claim C4: loading a source document whose root element token is not
`directory` fails with a `StructuralError` (`DirectoryServiceError`) and
leaves the store's cached state exactly as it was. -/
theorem spec_C4_bad_root_fails_state_unchanged (s : Store) (root : XNode)
    (hsrc : s.source = some root) (htag : root.tag ≠ Element.directory) :
    s.load =
      (s, some (.structural ("Incorrect root element: " ++ root.tag))) := by
  simp [Store.load, loadRecords, hsrc, htag]

/-- Witness for C4 at `storeC4`, a previously loaded store whose source
root token is `not-directory`. -/
theorem spec_C4_witness :
    storeC4.load =
      (storeC4,
       some (.structural ("Incorrect root element: " ++ "not-directory"))) :=
  spec_C4_bad_root_fails_state_unchanged storeC4
    ⟨"not-directory", [], none, []⟩ rfl (by decide)

/-- Claim C2 (refuted — the field loop lacks a `continue` after recording
an unknown tag): loading `docC2` records `bogus` as unknown but also
stores the `bogus` element's text under the previously resolved field
name, overwriting `uid` with `"x"` instead of leaving `"u1"`. -/
theorem spec_C2_unknown_field_fall_through :
    ∃ r, loadRecords (some docC2) = .ok r ∧
      "bogus" ∈ r.unknownFieldNames ∧
      r.records = [⟨.user, some "x", none, none, none, none, none⟩] :=
  ⟨_, rfl, by decide, by decide⟩

/-- Claim C3 (refuted — `fieldNode.text` is `None` for an empty element,
so `.encode("utf-8")` raises): loading `docC3`, whose record has an empty
`uid` element, fails with an uncaught `AttributeError` instead of storing
an empty-string value. -/
theorem spec_C3_empty_text_raises :
    loadRecords (some docC3) = .error .attributeError := rfl

/-- Claim C1: a document whose first record element carries an
unrecognized record-type token loads to a store with an empty record set
and that token in the unrecognized-record-types set — the `break` skips
every remaining record element (`rest` is arbitrary). -/
theorem spec_C1_unknown_recordType_halts (root bad : XNode)
    (rest : List XNode) (t : String)
    (hroot : root.tag = Element.directory)
    (hrealm : getAttribute root Attribute.realm ≠ "")
    (hch : root.children = bad :: rest)
    (ht : getAttribute bad Attribute.recordType = t)
    (htne : t ≠ "")
    (hunk : lookupRecordType t = none) :
    ∃ r, loadRecords (some root) = .ok r ∧
      r.records = [] ∧ t ∈ r.unknownRecordTypes := by
  have heff : effectiveTypeAttr bad = t := by
    simp [effectiveTypeAttr, ht, htne]
  have hstep : processRecordNodes ⟨[], [], [], none⟩ (bad :: rest) =
      .ok ⟨[], [t], [], none⟩ := by
    simp [processRecordNodes, processRecordNode, heff, hunk, insertStr]
  refine ⟨⟨getAttribute root Attribute.realm, [t], [], [], buildIndex []⟩,
    ?_, rfl, by simp⟩
  simp [loadRecords, hroot, hrealm, hch, hstep]

/-- Witness for C1 at `docC1`: `[bad-type, good-user]` yields an empty
record set and `bogus` among the unrecognized record types. -/
theorem spec_C1_witness :
    ∃ r, loadRecords (some docC1) = .ok r ∧
      r.records = [] ∧ "bogus" ∈ r.unknownRecordTypes :=
  spec_C1_unknown_recordType_halts docC1
    ⟨"record", [("type", "bogus")], none, []⟩
    [⟨"record", [], none, [⟨"uid", [], some "u1", []⟩]⟩] "bogus"
    rfl (by decide) rfl rfl (by decide) (by decide)

lemma store_recordType (f : Fields) (fn : FieldName) (v : String) :
    (f.store fn v).recordType = f.recordType := by
  cases fn <;> rfl

lemma processFieldNode_recordType (flds : Fields) (last : Option FieldName)
    (unk : List String) (node : XNode) (f : Fields) (l : Option FieldName)
    (u : List String)
    (h : processFieldNode flds last unk node = .ok (f, l, u)) :
    f.recordType = flds.recordType := by
  cases htext : node.text with
  | none => simp [processFieldNode, htext] at h
  | some v =>
      cases hl : lookupFieldName node.tag with
      | some fn =>
          simp [processFieldNode, htext, hl] at h
          rw [← h.1, store_recordType]
      | none =>
          cases hlast : last with
          | none => simp [processFieldNode, htext, hl, hlast] at h
          | some fn =>
              simp [processFieldNode, htext, hl, hlast] at h
              rw [← h.1, store_recordType]

lemma processFieldNodes_recordType (nodes : List XNode) :
    ∀ flds last unk f l u,
      processFieldNodes flds last unk nodes = .ok (f, l, u) →
      f.recordType = flds.recordType := by
  induction nodes with
  | nil =>
      intro flds last unk f l u h
      simp [processFieldNodes] at h
      rw [← h.1]
  | cons node rest ih =>
      intro flds last unk f l u h
      unfold processFieldNodes at h
      cases hp : processFieldNode flds last unk node with
      | error e => rw [hp] at h; simp at h
      | ok x =>
          rw [hp] at h
          obtain ⟨f1, l1, u1⟩ := x
          rw [ih f1 l1 u1 f l u h,
            processFieldNode_recordType flds last unk node f1 l1 u1 hp]

/-- Claim C8: a record element with no `type` attribute (equivalently an
empty one — `node.get` returns `""` for an absent attribute) materializes
a record whose record-type field is the `user` record type. -/
theorem spec_C8_default_type_user (st : RecState) (node : XNode)
    (st' : RecState)
    (hattr : getAttribute node Attribute.recordType = "")
    (hok : processRecordNode st node = .ok (.next st')) :
    ∃ flds, st'.records = insertRec flds st.records ∧
      flds.recordType = .user := by
  have heff : effectiveTypeAttr node = Value.user := by
    simp [effectiveTypeAttr, hattr]
  unfold processRecordNode at hok
  rw [heff] at hok
  have hu : lookupRecordType Value.user = some .user := rfl
  simp only [hu] at hok
  cases hp : processFieldNodes (initFields .user) st.last
      st.unknownFieldNames node.children with
  | error e => rw [hp] at hok; simp at hok
  | ok x =>
      rw [hp] at hok
      obtain ⟨flds, l, u⟩ := x
      simp at hok
      refine ⟨flds, ?_, ?_⟩
      · rw [← hok]
      · rw [processFieldNodes_recordType node.children (initFields .user)
          st.last st.unknownFieldNames flds l u hp]
        rfl

/-- Witness for C8 at `recNodeC8` (a `record` element with no `type`
attribute): the materialized record's type is `user`. -/
theorem spec_C8_witness :
    ∃ flds,
      RecState.records
          ⟨[⟨.user, some "u1", none, none, none, none, none⟩], [], [],
            some .uid⟩ =
        insertRec flds (RecState.records ⟨[], [], [], none⟩) ∧
      flds.recordType = .user :=
  spec_C8_default_type_user ⟨[], [], [], none⟩ recNodeC8
    ⟨[⟨.user, some "u1", none, none, none, none, none⟩], [], [], some .uid⟩
    rfl rfl

lemma store_getMulti (f : Fields) (fn0 fn : FieldName) (v : String) :
    (f.store fn0 v).getMulti fn =
      if fn = fn0 ∧ fn.isMultiValue = true then f.getMulti fn ++ [v]
      else f.getMulti fn := by
  cases fn0 <;> cases fn <;>
    simp [Fields.store, Fields.getMulti, FieldName.isMultiValue]

lemma store_getSingle (f : Fields) (fn0 fn : FieldName) (v : String)
    (h0 : fn0 ≠ .recordType) :
    (f.store fn0 v).getSingle fn =
      if fn = fn0 ∧ fn.isMultiValue = false then some v
      else f.getSingle fn := by
  cases fn0 <;> cases fn <;>
    simp_all [Fields.store, Fields.getSingle, FieldName.isMultiValue]

lemma lookupFieldName_ne_recordType (tag : String) (fn : FieldName)
    (h : lookupFieldName tag = some fn) : fn ≠ .recordType := by
  intro heq
  subst heq
  unfold lookupFieldName at h
  repeat' split at h
  all_goals simp_all

lemma lastValue_append_single (vs : List String) :
    ∀ (d : Option String) (v : String), lastValue d (vs ++ [v]) = some v := by
  induction vs with
  | nil => intro d v; rfl
  | cons w ws ih => intro d v; exact ih (some w) v

lemma initFields_getMulti (rt : RecordType) (fn : FieldName) :
    (initFields rt).getMulti fn = [] := by
  cases fn <;> rfl

/-- The main accumulation lemma for the field loop: when every child tag
is recognized and every child has text, the loop succeeds, each
multi-valued field ends as its initial list extended by the texts of its
occurrences in source order, and each single-valued field ends as the
last-written value over its initial content. -/
lemma processFieldNodes_values (nodes : List XNode) :
    ∀ (flds : Fields) (last : Option FieldName) (unk : List String),
      (∀ c ∈ nodes, (lookupFieldName c.tag).isSome) →
      (∀ c ∈ nodes, c.text.isSome) →
      ∃ flds' last' unk',
        processFieldNodes flds last unk nodes = .ok (flds', last', unk') ∧
        (∀ fn, fn.isMultiValue = true →
          flds'.getMulti fn = flds.getMulti fn ++ fieldOccurrences fn nodes) ∧
        (∀ fn, fn.isMultiValue = false →
          flds'.getSingle fn =
            lastValue (flds.getSingle fn) (fieldOccurrences fn nodes)) := by
  induction nodes with
  | nil =>
      intro flds last unk _ _
      exact ⟨flds, last, unk, rfl,
        fun fn _ => by simp [fieldOccurrences],
        fun fn _ => by simp [fieldOccurrences, lastValue]⟩
  | cons c rest ih =>
      intro flds last unk hrec htext
      obtain ⟨fn0, hfn0⟩ :=
        Option.isSome_iff_exists.mp (hrec c (by simp))
      obtain ⟨t, ht⟩ := Option.isSome_iff_exists.mp (htext c (by simp))
      have hstep : processFieldNode flds last unk c =
          .ok (flds.store fn0 t, some fn0, unk) := by
        simp [processFieldNode, hfn0, ht]
      obtain ⟨flds', last', unk', hrun, hmulti, hsingle⟩ :=
        ih (flds.store fn0 t) (some fn0) unk
          (fun c hc => hrec c (by simp [hc]))
          (fun c hc => htext c (by simp [hc]))
      have hocc_eq : ∀ fn, fn = fn0 →
          fieldOccurrences fn (c :: rest) = t :: fieldOccurrences fn rest := by
        intro fn he
        subst he
        simp [fieldOccurrences, List.filterMap_cons, hfn0, ht]
      have hocc_ne : ∀ fn, fn ≠ fn0 →
          fieldOccurrences fn (c :: rest) = fieldOccurrences fn rest := by
        intro fn he
        simp [fieldOccurrences, List.filterMap_cons, hfn0, Ne.symm he]
      refine ⟨flds', last', unk', ?_, ?_, ?_⟩
      · unfold processFieldNodes
        rw [hstep]
        exact hrun
      · intro fn hfn
        rw [hmulti fn hfn, store_getMulti]
        by_cases he : fn = fn0
        · rw [if_pos ⟨he, hfn⟩, hocc_eq fn he, List.append_assoc,
            List.singleton_append]
        · rw [if_neg (fun hand => he hand.1), hocc_ne fn he]
      · intro fn hfn
        rw [hsingle fn hfn,
          store_getSingle flds fn0 fn t
            (lookupFieldName_ne_recordType c.tag fn0 hfn0)]
        by_cases he : fn = fn0
        · rw [if_pos ⟨he, hfn⟩, hocc_eq fn he]
          rfl
        · rw [if_neg (fun hand => he hand.1), hocc_ne fn he]

/-- Claim C7 as amended: within one record element ALL of whose child
elements bear recognized field tags and have text content, the field
loop succeeds; a multi-valued field's stored value is the ordered list
of the texts of its occurrences (N occurrences give exactly N values in
source order), and a single-valued field's stored value is the text of
its last occurrence. -/
theorem spec_C7_amended_field_accumulation (children : List XNode)
    (rt : RecordType) (last : Option FieldName) (unk : List String)
    (hrec : ∀ c ∈ children, (lookupFieldName c.tag).isSome)
    (htext : ∀ c ∈ children, c.text.isSome) :
    ∃ flds last' unk',
      processFieldNodes (initFields rt) last unk children =
        .ok (flds, last', unk') ∧
      (∀ fn, fn.isMultiValue = true →
        flds.getMulti fn = fieldOccurrences fn children) ∧
      (∀ fn vs v, fn.isMultiValue = false →
        fieldOccurrences fn children = vs ++ [v] →
        flds.getSingle fn = some v) := by
  obtain ⟨flds, last', unk', hrun, hm, hs⟩ :=
    processFieldNodes_values children (initFields rt) last unk hrec htext
  refine ⟨flds, last', unk', hrun, ?_, ?_⟩
  · intro fn hfn
    rw [hm fn hfn, initFields_getMulti, List.nil_append]
  · intro fn vs v hfn hocc
    rw [hs fn hfn, hocc, lastValue_append_single]

/-- Witness for the amended C7 at the spec's end-to-end record (`uid`
once, `short-name` twice). -/
theorem spec_C7_witness :
    ∃ flds last' unk',
      processFieldNodes (initFields .user) none []
          [⟨"uid", [], some "u1", []⟩,
           ⟨"short-name", [], some "alice", []⟩,
           ⟨"short-name", [], some "al", []⟩] =
        .ok (flds, last', unk') ∧
      flds.getMulti .shortNames = ["alice", "al"] ∧
      flds.getSingle .uid = some "u1" := by
  obtain ⟨flds, last', unk', hrun, hm, hs⟩ :=
    spec_C7_amended_field_accumulation
      [⟨"uid", [], some "u1", []⟩,
       ⟨"short-name", [], some "alice", []⟩,
       ⟨"short-name", [], some "al", []⟩]
      .user none [] (by decide) (by decide)
  refine ⟨flds, last', unk', hrun, ?_, hs .uid [] "u1" rfl (by decide)⟩
  rw [hm .shortNames rfl]
  decide

/-- Counterexample to C7 as stated: in `docC7` the `short-name` field
occurs once (its occurrence texts are `["a"]`), yet the materialized
record holds the two values `["a", "x"]` — the unrecognized `bogus`
element's text is appended to the previously resolved field. -/
theorem spec_C7_counterexample :
    loadedRecords (some docC7) =
      [⟨.user, none, none, some ["a", "x"], none, none, none⟩] ∧
    fieldOccurrences .shortNames recNodeC7.children = ["a"] := by
  constructor
  · decide
  · decide

lemma processFieldNode_not_structural (flds : Fields)
    (last : Option FieldName) (unk : List String) (node : XNode)
    (msg : String) :
    processFieldNode flds last unk node ≠ .error (.structural msg) := by
  cases htext : node.text with
  | none => simp [processFieldNode, htext]
  | some v =>
      cases hl : lookupFieldName node.tag with
      | some fn => simp [processFieldNode, htext, hl]
      | none =>
          cases last with
          | none => simp [processFieldNode, htext, hl]
          | some fn => simp [processFieldNode, htext, hl]

lemma processFieldNodes_not_structural (nodes : List XNode) :
    ∀ (flds : Fields) (last : Option FieldName) (unk : List String)
      (msg : String),
      processFieldNodes flds last unk nodes ≠ .error (.structural msg) := by
  induction nodes with
  | nil => intro flds last unk msg; simp [processFieldNodes]
  | cons c rest ih =>
      intro flds last unk msg
      unfold processFieldNodes
      cases hp : processFieldNode flds last unk c with
      | error e =>
          intro h
          injection h with h
          exact processFieldNode_not_structural flds last unk c msg
            (by rw [hp, h])
      | ok x =>
          obtain ⟨f, l, u⟩ := x
          exact ih f l u msg

lemma processRecordNode_not_structural (st : RecState) (node : XNode)
    (msg : String) :
    processRecordNode st node ≠ .error (.structural msg) := by
  unfold processRecordNode
  cases hl : lookupRecordType (effectiveTypeAttr node) with
  | none => simp
  | some rt =>
      cases hp : processFieldNodes (initFields rt) st.last
          st.unknownFieldNames node.children with
      | error e =>
          intro h
          simp only [hp] at h
          injection h with h
          exact processFieldNodes_not_structural node.children
            (initFields rt) st.last st.unknownFieldNames msg (by rw [hp, h])
      | ok x =>
          obtain ⟨f, l, u⟩ := x
          simp [hp]

lemma processRecordNodes_not_structural (nodes : List XNode) :
    ∀ (st : RecState) (msg : String),
      processRecordNodes st nodes ≠ .error (.structural msg) := by
  induction nodes with
  | nil => intro st msg; simp [processRecordNodes]
  | cons node rest ih =>
      intro st msg
      unfold processRecordNodes
      cases hp : processRecordNode st node with
      | error e =>
          intro h
          injection h with h
          exact processRecordNode_not_structural st node msg (by rw [hp, h])
      | ok x =>
          cases x with
          | halt st' => simp
          | next st' => exact ih st' msg

/-- Claim C6: loading fails with a `StructuralError`
(`DirectoryServiceError`) exactly when the stream is not well-formed, the
root token is not `directory`, or the realm attribute is missing/empty;
and whenever a load completes, the stored realm name equals the root's
`realm` attribute value. -/
theorem spec_C6_structural_iff_and_realm (src : Option XNode) :
    ((∃ msg, loadRecords src = .error (.structural msg)) ↔
      src = none ∨
        ∃ root, src = some root ∧
          (root.tag ≠ Element.directory ∨
            getAttribute root Attribute.realm = "")) ∧
    (∀ root r, src = some root → loadRecords src = .ok r →
      r.realmName = getAttribute root Attribute.realm) := by
  cases src with
  | none =>
      refine ⟨⟨fun _ => Or.inl rfl, fun _ => ⟨"XML parse error", rfl⟩⟩,
        fun root r h _ => Option.noConfusion h⟩
  | some root =>
      by_cases htag : root.tag = Element.directory
      · by_cases hrealm : getAttribute root Attribute.realm = ""
        · have hload : loadRecords (some root) =
              .error (.structural "No realm name.") := by
            simp [loadRecords, htag, hrealm]
          refine ⟨⟨fun _ => Or.inr ⟨root, rfl, Or.inr hrealm⟩,
            fun _ => ⟨"No realm name.", hload⟩⟩, ?_⟩
          intro root' r _ hok
          rw [hload] at hok
          exact Except.noConfusion hok
        · have hload : loadRecords (some root) =
              match processRecordNodes ⟨[], [], [], none⟩ root.children with
              | .error e => .error e
              | .ok st =>
                  .ok ⟨getAttribute root Attribute.realm,
                    st.unknownRecordTypes, st.unknownFieldNames,
                    st.records, buildIndex st.records⟩ := by
            simp [loadRecords, htag, hrealm]
          cases hp : processRecordNodes ⟨[], [], [], none⟩ root.children with
          | error e =>
              rw [hp] at hload
              refine ⟨⟨?_, ?_⟩, ?_⟩
              · rintro ⟨msg, hmsg⟩
                rw [hload] at hmsg
                injection hmsg with hmsg
                exact absurd (hp.trans (by rw [hmsg]))
                  (processRecordNodes_not_structural root.children
                    ⟨[], [], [], none⟩ msg)
              · rintro (h | ⟨root', heq, hbad⟩)
                · exact Option.noConfusion h
                · injection heq with heq
                  subst heq
                  rcases hbad with h | h
                  · exact absurd htag h
                  · exact absurd h hrealm
              · intro root' r _ hok
                rw [hload] at hok
                exact Except.noConfusion hok
          | ok st =>
              rw [hp] at hload
              refine ⟨⟨?_, ?_⟩, ?_⟩
              · rintro ⟨msg, hmsg⟩
                rw [hload] at hmsg
                exact Except.noConfusion hmsg
              · rintro (h | ⟨root', heq, hbad⟩)
                · exact Option.noConfusion h
                · injection heq with heq
                  subst heq
                  rcases hbad with h | h
                  · exact absurd htag h
                  · exact absurd h hrealm
              · intro root' r heq hok
                injection heq with heq
                subst heq
                rw [hload] at hok
                injection hok with hok
                rw [← hok]
      · have hload : loadRecords (some root) =
            .error (.structural ("Incorrect root element: " ++ root.tag)) := by
          simp [loadRecords, htag]
        refine ⟨⟨fun _ => Or.inr ⟨root, rfl, Or.inl htag⟩,
          fun _ => ⟨"Incorrect root element: " ++ root.tag, hload⟩⟩, ?_⟩
        intro root' r _ hok
        rw [hload] at hok
        exact Except.noConfusion hok

/-- Witness for C6: an unparseable stream fails with a `StructuralError`,
and the spec's end-to-end document loads with realm name `Test`. -/
theorem spec_C6_witness :
    (∃ msg, loadRecords none = .error (.structural msg)) ∧
    ∃ r, loadRecords (some docTest) = .ok r ∧ r.realmName = "Test" := by
  constructor
  · exact (spec_C6_structural_iff_and_realm none).1.mpr (Or.inl rfl)
  · obtain ⟨r, hr⟩ : ∃ r, loadRecords (some docTest) = .ok r := ⟨_, rfl⟩
    refine ⟨r, hr, ?_⟩
    rw [(spec_C6_structural_iff_and_realm (some docTest)).2 docTest r rfl hr]
    decide

lemma mem_addToIndex (idx : Index) (ufn : FieldName) (uk : IndexKey)
    (r x : Fields) (fn : FieldName) (k : IndexKey) (h : x ∈ idx fn k) :
    x ∈ addToIndex idx ufn uk r fn k := by
  show x ∈ if fn = ufn ∧ k = uk then insertRec r (idx ufn uk) else idx fn k
  split
  · next hc =>
      obtain ⟨h1, h2⟩ := hc
      subst h1
      subst h2
      exact mem_insertRec_of_mem x r _ h
  · exact h

lemma mem_foldl_addToIndex (keys : List IndexKey) :
    ∀ (idx : Index) (ufn : FieldName) (r x : Fields) (fn : FieldName)
      (k : IndexKey),
      x ∈ idx fn k →
      x ∈ (keys.foldl (fun i key => addToIndex i ufn key r) idx) fn k := by
  induction keys with
  | nil => intro idx ufn r x fn k h; exact h
  | cons key rest ih =>
      intro idx ufn r x fn k h
      exact ih _ ufn r x fn k (mem_addToIndex idx ufn key r x fn k h)

lemma self_mem_foldl_addToIndex (keys : List IndexKey) :
    ∀ (idx : Index) (ufn : FieldName) (r : Fields) (k : IndexKey),
      k ∈ keys →
      r ∈ (keys.foldl (fun i key => addToIndex i ufn key r) idx) ufn k := by
  induction keys with
  | nil => intro idx ufn r k h; simp at h
  | cons key rest ih =>
      intro idx ufn r k h
      rcases List.mem_cons.mp h with h | h
      · subst h
        rw [List.foldl_cons]
        apply mem_foldl_addToIndex
        show r ∈ if ufn = ufn ∧ k = k then insertRec r (idx ufn k)
          else idx ufn k
        rw [if_pos ⟨rfl, rfl⟩]
        exact mem_insertRec_self r _
      · exact ih _ ufn r k h

lemma mem_foldl_indexFields (fns : List FieldName) :
    ∀ (idx : Index) (r x : Fields) (fn : FieldName) (k : IndexKey),
      x ∈ idx fn k →
      x ∈ (fns.foldl
        (fun i f => (r.indexValues f).foldl
          (fun i2 key => addToIndex i2 f key r) i) idx) fn k := by
  induction fns with
  | nil => intro idx r x fn k h; exact h
  | cons f0 rest ih =>
      intro idx r x fn k h
      exact ih _ r x fn k
        (mem_foldl_addToIndex (r.indexValues f0) idx f0 r x fn k h)

lemma self_mem_foldl_indexFields (fns : List FieldName) :
    ∀ (idx : Index) (r : Fields) (fn : FieldName) (k : IndexKey),
      fn ∈ fns → k ∈ r.indexValues fn →
      r ∈ (fns.foldl
        (fun i f => (r.indexValues f).foldl
          (fun i2 key => addToIndex i2 f key r) i) idx) fn k := by
  induction fns with
  | nil => intro idx r fn k h; simp at h
  | cons f0 rest ih =>
      intro idx r fn k h hk
      rcases List.mem_cons.mp h with h | h
      · subst h
        exact mem_foldl_indexFields rest _ r r fn k
          (self_mem_foldl_addToIndex (r.indexValues fn) idx fn r k hk)
      · exact ih _ r fn k h hk

lemma mem_indexRecord (idx : Index) (r x : Fields) (fn : FieldName)
    (k : IndexKey) (h : x ∈ idx fn k) : x ∈ indexRecord idx r fn k :=
  mem_foldl_indexFields indexedFields idx r x fn k h

lemma self_mem_indexRecord (idx : Index) (r : Fields) (fn : FieldName)
    (k : IndexKey) (hfn : fn ∈ indexedFields) (hk : k ∈ r.indexValues fn) :
    r ∈ indexRecord idx r fn k :=
  self_mem_foldl_indexFields indexedFields idx r fn k hfn hk

lemma mem_foldl_indexRecord (records : List Fields) :
    ∀ (idx : Index) (x : Fields) (fn : FieldName) (k : IndexKey),
      x ∈ idx fn k → x ∈ (records.foldl indexRecord idx) fn k := by
  induction records with
  | nil => intro idx x fn k h; exact h
  | cons r rest ih =>
      intro idx x fn k h
      exact ih _ x fn k (mem_indexRecord idx r x fn k h)

lemma self_mem_foldl_indexRecord (records : List Fields) :
    ∀ (idx : Index) (rec : Fields) (fn : FieldName) (k : IndexKey),
      rec ∈ records → fn ∈ indexedFields → k ∈ rec.indexValues fn →
      rec ∈ (records.foldl indexRecord idx) fn k := by
  induction records with
  | nil => intro idx rec fn k h; simp at h
  | cons r rest ih =>
      intro idx rec fn k h hfn hk
      rcases List.mem_cons.mp h with h | h
      · subst h
        exact mem_foldl_indexRecord rest (indexRecord idx rec) rec fn k
          (self_mem_indexRecord idx rec fn k hfn hk)
      · exact ih _ rec fn k h hfn hk

lemma mem_buildIndex (records : List Fields) (rec : Fields)
    (fn : FieldName) (k : IndexKey) (hrec : rec ∈ records)
    (hfn : fn ∈ indexedFields) (hk : k ∈ rec.indexValues fn) :
    rec ∈ buildIndex records fn k :=
  self_mem_foldl_indexRecord records (fun _ _ => []) rec fn k hrec hfn hk

lemma loadRecords_ok_index (src : Option XNode) (r : LoadResult)
    (h : loadRecords src = .ok r) : r.index = buildIndex r.records := by
  cases src with
  | none => exact Except.noConfusion h
  | some root =>
      by_cases htag : root.tag = Element.directory
      · by_cases hrealm : getAttribute root Attribute.realm = ""
        · rw [show loadRecords (some root) =
              .error (.structural "No realm name.") from by
            simp [loadRecords, htag, hrealm]] at h
          exact Except.noConfusion h
        · have hload : loadRecords (some root) =
              match processRecordNodes ⟨[], [], [], none⟩ root.children with
              | .error e => .error e
              | .ok st =>
                  .ok ⟨getAttribute root Attribute.realm,
                    st.unknownRecordTypes, st.unknownFieldNames,
                    st.records, buildIndex st.records⟩ := by
            simp [loadRecords, htag, hrealm]
          cases hp : processRecordNodes ⟨[], [], [], none⟩ root.children with
          | error e =>
              rw [hp] at hload
              rw [hload] at h
              exact Except.noConfusion h
          | ok st =>
              rw [hp] at hload
              rw [hload] at h
              injection h with h
              rw [← h]
      · rw [show loadRecords (some root) =
            .error (.structural ("Incorrect root element: " ++ root.tag))
            from by simp [loadRecords, htag]] at h
        exact Except.noConfusion h

/-- Claim C5: after every successful load, for every indexed field, every
record in the store, and every value the record holds for that field, the
field index maps that value to a set containing that record. -/
theorem spec_C5_index_complete (src : Option XNode) (r : LoadResult)
    (hok : loadRecords src = .ok r) :
    ∀ rec ∈ r.records, ∀ fn ∈ indexedFields, ∀ k ∈ rec.indexValues fn,
      rec ∈ r.index fn k := by
  intro rec hrec fn hfn k hk
  rw [loadRecords_ok_index src r hok]
  exact mem_buildIndex r.records rec fn k hrec hfn hk

/-- Witness for C5 at the spec's end-to-end document: the loaded record
appears in the short-name index under `alice`. -/
theorem spec_C5_witness :
    ∃ r, loadRecords (some docTest) = .ok r ∧ recAlice ∈ r.records ∧
      recAlice ∈ r.index .shortNames (.ofString "alice") := by
  obtain ⟨r, hr⟩ : ∃ r, loadRecords (some docTest) = .ok r := ⟨_, rfl⟩
  have hrec : recAlice ∈ r.records := by
    have hlr : loadedRecords (some docTest) = r.records := by
      simp [loadedRecords, hr]
    rw [← hlr]
    decide
  exact ⟨r, hr, hrec,
    spec_C5_index_complete (some docTest) r hr recAlice hrec .shortNames
      (by decide) (.ofString "alice") (by decide)⟩
